import Mathlib

/-!
Verification model of the interactive-gym server core: a shallow embedding of
`server/remote_game.py` (the `RemoteGame` session class) and
`server/server_app.py` (registry, join/leave protocol, reset barrier and game
loop bookkeeping).  Python dicts are modelled as association lists, Python's
`queue.Queue(maxsize=1)` as a `List` of length at most one, and identities,
actions and observations as natural numbers.  Functions that can raise or
block return `Option`/`Except` values.
-/

namespace IGym

/-! ### Association-list helpers (Python `dict` semantics) -/

/-- Lookup of a key, returning the first binding (Python `d.get(k)` /
`d[k]`). -/
def lookupA {κ α : Type} [DecidableEq κ] (l : List (κ × α)) (k : κ) : Option α :=
  match l with
  | [] => none
  | p :: rest => if p.1 = k then some p.2 else lookupA rest k

/-- Assignment `d[k] = v`: replace the first binding of `k`, or append a new
binding when the key is absent. -/
def insertA {κ α : Type} [DecidableEq κ] (l : List (κ × α)) (k : κ) (v : α) :
    List (κ × α) :=
  match l with
  | [] => [(k, v)]
  | p :: rest => if p.1 = k then (k, v) :: rest else p :: insertA rest k v

/-- Deletion `del d[k]`: remove the first binding of `k` (no-op when the key
is absent; the Python `KeyError` on a missing key is handled at call sites
where it matters). -/
def eraseA {κ α : Type} [DecidableEq κ] (l : List (κ × α)) (k : κ) :
    List (κ × α) :=
  match l with
  | [] => []
  | p :: rest => if p.1 = k then rest else p :: eraseA rest k

/-! ### `remote_game.py` -/

/-- `GameStatus` constants. -/
inductive GameStatus
  | Done
  | Active
  | Inactive
  | Reset
deriving DecidableEq, Repr

/-- A non-human slot occupant: the `PolicyTypes.Random` marker, or a policy
object loaded by `load_policy_fn` (identified by its handle). -/
inductive Bot
  | random
  | policy (handle : Nat)
deriving DecidableEq, Repr

/-- An entry of `config.policy_mapping`: the `PolicyTypes.Human` marker, the
`PolicyTypes.Random` marker, or a custom policy id. -/
inductive PolicyId
  | human
  | random
  | custom (handle : Nat)
deriving DecidableEq, Repr

/-- The slice of `RemoteConfig` consumed by the server core. -/
structure Config where
  numEpisodes : Nat
  defaultAction : Nat
  frameSkip : Nat
  waitroomTimeout : Nat
  policyMapping : List (Nat × PolicyId)
deriving Repr

/-- State of one `RemoteGame`.  `human_players` maps a player id to
`utils.Available` (`none`) or the occupying subject id (`some sid`);
`pending_actions` is the defaultdict of capacity-1 queues, keyed by the
values stored in `human_players` (a subject id or the `Available`
sentinel).  The environment object itself is external; only the latest
observation (`self.obs`, read per player id) is kept.  `resetEventSet`
models `self.reset_event` (a `threading.Event`). -/
structure RemoteGame where
  status : GameStatus
  pendingActions : List (Option Nat × List Nat)
  humanPlayers : List (Nat × Option Nat)
  botPlayers : List (Nat × Bot)
  obs : Nat → Nat
  gameId : Nat
  tickNum : Nat
  episodeNum : Nat
  resetEventSet : Bool

/-- `_load_policies`: split `policy_mapping` into the `human_players` and
`bot_players` dicts. -/
def loadPolicies (pm : List (Nat × PolicyId)) :
    List (Nat × Option Nat) × List (Nat × Bot) :=
  match pm with
  | [] => ([], [])
  | (aid, pol) :: rest =>
    let hb := loadPolicies rest
    match pol with
    | .human => ((aid, none) :: hb.1, hb.2)
    | .random => (hb.1, (aid, .random) :: hb.2)
    | .custom h => (hb.1, (aid, .policy h) :: hb.2)

/-- `RemoteGame.__init__` followed by `_build`: fresh `Inactive` game with
empty queues and zeroed counters. -/
def newGame (cfg : Config) (gid : Nat) : RemoteGame :=
  { status := GameStatus.Inactive
    pendingActions := []
    humanPlayers := (loadPolicies cfg.policyMapping).1
    botPlayers := (loadPolicies cfg.policyMapping).2
    obs := fun _ => 0
    gameId := gid
    tickNum := 0
    episodeNum := 0
    resetEventSet := false }

/-- `get_available_human_player_ids`. -/
def getAvailableHumanPlayerIds (g : RemoteGame) : List Nat :=
  (g.humanPlayers.filter (fun p => p.2 = none)).map Prod.fst

/-- `is_at_player_capacity`. -/
def isAtPlayerCapacity (g : RemoteGame) : Bool :=
  getAvailableHumanPlayerIds g = []

/-- `cur_num_human_players`. -/
def curNumHumanPlayers (g : RemoteGame) : Nat :=
  (g.humanPlayers.filter (fun p => p.2 ≠ none)).length

/-- `is_ready_to_start`. -/
def isReadyToStart (g : RemoteGame) : Bool :=
  isAtPlayerCapacity g

/-- `remove_human_player`: find the slot occupied by `sid` and make it
`Available`; a warning-only no-op when the subject occupies no slot. -/
def removeHumanPlayer (g : RemoteGame) (sid : Nat) : RemoteGame :=
  match g.humanPlayers.find? (fun p => p.2 = some sid) with
  | none => g
  | some p =>
    { g with humanPlayers := insertA g.humanPlayers p.1 none }

/-- `add_player` (the caller asserts the chosen id is available). -/
def addPlayer (g : RemoteGame) (pid : Nat) (sid : Nat) : RemoteGame :=
  { g with humanPlayers := insertA g.humanPlayers pid (some sid) }

/-- `tear_down`: set status `Inactive` and clear the contents of every
pending-action queue (keys are kept, as `q.queue.clear()` keeps the queue
objects). -/
def tearDown (g : RemoteGame) : RemoteGame :=
  { g with
    status := GameStatus.Inactive
    pendingActions := g.pendingActions.map (fun p => (p.1, ([] : List Nat))) }

/-- `enqueue_action`.  The queue has `maxsize=1` and `put` is invoked in its
default blocking mode, so when the queue already holds an action the call
suspends the caller until the queue drains; that suspension is modelled as
`none` (the `except queue.Full` branch in the source is unreachable, since a
blocking `put` without a timeout never raises `queue.Full`). -/
def enqueueAction (g : RemoteGame) (sid : Nat) (a : Nat) : Option RemoteGame :=
  if g.status ≠ GameStatus.Active then some g
  else if some sid ∉ g.humanPlayers.map Prod.snd then some g
  else
    let q := (lookupA g.pendingActions (some sid)).getD []
    if q.length < 1 then
      some { g with pendingActions := insertA g.pendingActions (some sid) (q ++ [a]) }
    else none

/-- One human slot's read in `tick`: dequeue the pending action when the
queue is non-empty, else substitute the configured default action. -/
def dequeueOne (pa : List (Option Nat × List Nat)) (k : Option Nat) (d : Nat) :
    Nat × List (Option Nat × List Nat) :=
  match (lookupA pa k).getD [] with
  | [] => (d, pa)
  | a :: rest => (a, insertA pa k rest)

/-- The `player_actions` dict comprehension over `human_players` in `tick`,
together with the queue mutations it performs. -/
def humanActions (d : Nat) (pa : List (Option Nat × List Nat))
    (hs : List (Nat × Option Nat)) :
    List (Nat × Nat) × List (Option Nat × List Nat) :=
  match hs with
  | [] => ([], pa)
  | (pid, sid) :: rest =>
    let r1 := dequeueOne pa sid d
    let r2 := humanActions d r1.2 rest
    ((pid, r1.1) :: r2.1, r2.2)

/-- A bot slot's action in `tick`: `env.action_space.sample()` (modelled by
the `sample` parameter) for a random bot, else
`config.policy_inference_fn(self.obs[pid], bot)` (modelled by `pf`). -/
def botAction (pf : Nat → Nat → Nat) (sample : Nat) (g : RemoteGame)
    (b : Bot) (pid : Nat) : Nat :=
  match b with
  | .random => sample
  | .policy h => pf (g.obs pid) h

/-- The bot loop in `tick`: `player_actions[pid] = ...` for every bot. -/
def botAssign (pf : Nat → Nat → Nat) (sample : Nat) (g : RemoteGame)
    (acts : List (Nat × Nat)) : List (Nat × Nat) :=
  g.botPlayers.foldl (fun acc p => insertA acc p.1 (botAction pf sample g p.2 p.1)) acts

/-- The full `player_actions` dict passed on from `tick`, and the mutated
queues. -/
def tickActions (cfg : Config) (pf : Nat → Nat → Nat) (sample : Nat)
    (g : RemoteGame) : List (Nat × Nat) × List (Option Nat × List Nat) :=
  let r := humanActions cfg.defaultAction g.pendingActions g.humanPlayers
  (botAssign pf sample g r.1, r.2)

/-- The value passed to `env.step`: a bare action when
`len(player_actions) == 1` (the "not multiagent" collapse), else the
mapping itself. -/
inductive StepArg
  | single (a : Nat)
  | multi (m : List (Nat × Nat))
deriving DecidableEq, Repr

/-- The argument `tick` passes to `env.step`. -/
def stepArgOf (cfg : Config) (pf : Nat → Nat → Nat) (sample : Nat)
    (g : RemoteGame) : StepArg :=
  let acts := (tickActions cfg pf sample g).1
  if acts.length = 1 then StepArg.single ((acts.map Prod.snd).headD 0)
  else StepArg.multi acts

/-- Result of `env.step` after the `"__all__"` extraction that `tick`
performs on dict-valued terminateds/truncateds (rewards are unused). -/
structure StepResult where
  obs : Nat → Nat
  terminated : Bool
  truncated : Bool

/-- `RemoteGame.tick`, with the external environment supplied as the pure
function `envStep`. -/
def tick (cfg : Config) (envStep : StepArg → StepResult)
    (pf : Nat → Nat → Nat) (sample : Nat) (g : RemoteGame) : RemoteGame :=
  let pa1 := (tickActions cfg pf sample g).2
  let r := envStep (stepArgOf cfg pf sample g)
  { g with
    obs := r.obs
    pendingActions := pa1
    tickNum := g.tickNum + 1
    status :=
      if r.terminated || r.truncated then
        if g.episodeNum < cfg.numEpisodes then GameStatus.Reset
        else GameStatus.Done
      else g.status }

/-- `RemoteGame.reset`, with `env.reset` supplied as the pure function
`envReset`. -/
def resetGame (envReset : Option Nat → Nat → Nat) (seed : Option Nat)
    (g : RemoteGame) : RemoteGame :=
  { g with
    pendingActions := []
    obs := envReset seed
    status := GameStatus.Active
    tickNum := 0
    episodeNum := g.episodeNum + 1 }

/-! ### `server_app.py` -/

/-- `utils.GameExitStatus`, the classification `_leave_game` returns. -/
inductive GameExitStatus
  | ActiveNoPlayers
  | InactiveNoPlayers
  | InactiveWithOtherPlayers
  | ActiveWithOtherPlayers
deriving DecidableEq, Repr

/-- The process-wide registries of `server_app.py`.  `freeIds` is the FIFO
contents of the `FREE_IDS` queue; `freeMap` is the `FREE_MAP` bitmap (read
as a total function; ids outside the configured range are never free);
`games` is `GAMES`; `activeGames` is `ACTIVE_GAMES`; `waitingGames` is
`WAITING_GAMES`; `userRooms` is `USER_ROOMS`; `resetEvents` maps a game id
to the per-subject `threading.Event` flags of `RESET_EVENTS`;
`waitroomTimeouts` is `WAITROOM_TIMEOUTS`. -/
structure ServerState where
  freeIds : List Nat
  freeMap : Nat → Bool
  games : List (Nat × RemoteGame)
  activeGames : List Nat
  waitingGames : List Nat
  userRooms : List (Nat × Nat)
  resetEvents : List (Nat × List (Nat × Bool))
  waitroomTimeouts : List (Nat × Nat)

/-- The registry initialization performed by `run`: ids `1..N` are all free
and the per-id reset-event tables are empty. -/
def initServer (n : Nat) : ServerState :=
  { freeIds := List.range' 1 n
    freeMap := fun i => decide (i ∈ List.range' 1 n)
    games := []
    activeGames := []
    waitingGames := []
    userRooms := []
    resetEvents := (List.range' 1 n).map (fun i => (i, []))
    waitroomTimeouts := [] }

/-- `try_create_game`.  Pops a free id (returning `none` for the
capacity-exceeded `queue.Empty` path, which leaves the state unchanged),
asserts the id is still marked free in `FREE_MAP` (an assert failure is
caught by the `except Exception` arm after the id has already been popped,
so the id is lost), constructs the game and registers it. -/
def tryCreateGame (cfg : Config) (s : ServerState) : Option Nat × ServerState :=
  match s.freeIds with
  | [] => (none, s)
  | gid :: rest =>
    if s.freeMap gid then
      (some gid,
        { s with
          freeIds := rest
          games := insertA s.games gid (newGame cfg gid)
          freeMap := fun i => if i = gid then false else s.freeMap i })
    else (none, { s with freeIds := rest })

/-- `_create_game`: on success append the new id to `WAITING_GAMES` and
record its waitroom deadline (`now` models `time.time()`); on failure only
emit an error event (no state change beyond `try_create_game`). -/
def createGameStep (cfg : Config) (now : Nat) (s : ServerState) : ServerState :=
  match tryCreateGame cfg s with
  | (none, s1) => s1
  | (some gid, s1) =>
    { s1 with
      waitingGames := s1.waitingGames ++ [gid]
      waitroomTimeouts := insertA s1.waitroomTimeouts gid (now + cfg.waitroomTimeout) }

/-- `get_waiting_game`: the head of `WAITING_GAMES` resolved through
`GAMES.get` (a stale head id resolves to `none`). -/
def getWaitingGame (s : ServerState) : Option Nat :=
  match s.waitingGames with
  | [] => none
  | gid :: _ => if (lookupA s.games gid).isSome then some gid else none

/-- `_create_or_join_game`. -/
def createOrJoinGame (cfg : Config) (now : Nat) (s : ServerState) :
    Option Nat × ServerState :=
  match getWaitingGame s with
  | some gid => (some gid, s)
  | none =>
    let s1 := createGameStep cfg now s
    (getWaitingGame s1, s1)

/-- `_get_existing_game`: `GAMES.get(USER_ROOMS.get(subject_id))`. -/
def getExistingGame (s : ServerState) (sid : Nat) : Option RemoteGame :=
  match lookupA s.userRooms sid with
  | none => none
  | some gid => lookupA s.games gid

/-- Set `RESET_EVENTS[gid][sid] = Event()` (a fresh, un-set event).  The
outer table always has an entry for every configured id (created at server
start-up), so a missing outer entry is created here for totality. -/
def resetEventsAdd (re : List (Nat × List (Nat × Bool))) (gid sid : Nat) :
    List (Nat × List (Nat × Bool)) :=
  insertA re gid (insertA ((lookupA re gid).getD []) sid false)

/-- `del RESET_EVENTS[gid][sid]`. -/
def resetEventsDel (re : List (Nat × List (Nat × Bool))) (gid sid : Nat) :
    List (Nat × List (Nat × Bool)) :=
  insertA re gid (eraseA ((lookupA re gid).getD []) sid)

/-- Errors `_cleanup_game` can raise: the explicit
`ValueError("Freeing a free game!")` double-free guard, and the `KeyError`
of `del GAMES[...]` on a game id that is not live (both raised before the
registry is mutated in the corresponding source path). -/
inductive CleanupErr
  | doubleFree
  | keyError
deriving DecidableEq, Repr

/-- The loop in `_cleanup_game` deleting `USER_ROOMS[subject_id]` and
`RESET_EVENTS[game_id][subject_id]` for every occupied slot. -/
def cleanupMaps (gid : Nat) (slots : List (Nat × Option Nat))
    (ur : List (Nat × Nat)) (re : List (Nat × List (Nat × Bool))) :
    List (Nat × Nat) × List (Nat × List (Nat × Bool)) :=
  match slots with
  | [] => (ur, re)
  | (_, none) :: rest => cleanupMaps gid rest ur re
  | (_, some sid) :: rest =>
    cleanupMaps gid rest (eraseA ur sid) (resetEventsDel re gid sid)

/-- `_cleanup_game`: raise on a double free; otherwise drop the per-subject
bookkeeping, mark the id free, push it back onto `FREE_IDS`, delete the game
and drop it from `ACTIVE_GAMES` if present. -/
def cleanupGame (s : ServerState) (gid : Nat) : Except CleanupErr ServerState :=
  if s.freeMap gid then Except.error CleanupErr.doubleFree
  else
    match lookupA s.games gid with
    | none => Except.error CleanupErr.keyError
    | some g =>
      let m := cleanupMaps gid g.humanPlayers s.userRooms s.resetEvents
      Except.ok
        { s with
          userRooms := m.1
          resetEvents := m.2
          freeMap := fun i => if i = gid then true else s.freeMap i
          freeIds := s.freeIds ++ [gid]
          games := eraseA s.games gid
          activeGames :=
            if gid ∈ s.activeGames then s.activeGames.erase gid
            else s.activeGames }

/-- `_leave_game`.  Returns `some (s', none)` for the "not in any game"
early return (`False` in the source), `some (s', some status)` for a
classified exit, and `none` when the nested `_cleanup_game` raises (the
exception propagates).  Mutations of the `RemoteGame` object are reflected
into the `games` table, which holds the same object. -/
def leaveGame (s : ServerState) (sid : Nat) :
    Option (ServerState × Option GameExitStatus) :=
  match getExistingGame s sid with
  | none => some (s, none)
  | some g =>
    let gid := g.gameId
    let s1 :=
      { s with
        userRooms := eraseA s.userRooms sid
        resetEvents := resetEventsDel s.resetEvents gid sid }
    let g1 := removeHumanPlayer g sid
    let wasActive := gid ∈ s1.activeGames
    let isEmpty := curNumHumanPlayers g1 = 0
    let s2 := { s1 with games := insertA s1.games gid g1 }
    if wasActive ∧ isEmpty then
      some ({ s2 with games := insertA s2.games gid (tearDown g1) },
        some GameExitStatus.ActiveNoPlayers)
    else if isEmpty then
      match cleanupGame s2 gid with
      | Except.ok s3 => some (s3, some GameExitStatus.InactiveNoPlayers)
      | Except.error _ => none
    else if ¬ wasActive then
      some (s2, some GameExitStatus.InactiveWithOtherPlayers)
    else if wasActive ∧ ¬ isEmpty then
      some ({ s2 with games := insertA s2.games gid (tearDown g1) },
        some GameExitStatus.ActiveWithOtherPlayers)
    else none

/-- `join_or_create_game` (after session validation), under the subject's
lock.  `pick` models `random.choice` over the available player ids
(returning `none` exactly on the empty list, where the source raises);
`now` models `time.time()`.  Emits are not state.  The result is `none`
when an exception escapes (empty `random.choice` or the `add_player`
assert). -/
def joinOrCreateGame (cfg : Config) (pick : List Nat → Option Nat) (now : Nat)
    (s : ServerState) (sid : Nat) : Option ServerState :=
  if (getExistingGame s sid).isSome then some s
  else
    match createOrJoinGame cfg now s with
    | (none, s1) => some s1
    | (some gid, s1) =>
      match lookupA s1.games gid with
      | none => some s1
      | some g =>
        let s2 :=
          { s1 with
            userRooms := insertA s1.userRooms sid gid
            resetEvents := resetEventsAdd s1.resetEvents gid sid }
        match pick (getAvailableHumanPlayerIds g) with
        | none => none
        | some pid =>
          if pid ∈ getAvailableHumanPlayerIds g then
            let g1 := addPlayer g pid sid
            let s3 := { s2 with games := insertA s2.games gid g1 }
            if isReadyToStart g1 then
              some
                { s3 with
                  waitingGames := s3.waitingGames.erase gid
                  activeGames :=
                    if gid ∈ s3.activeGames then s3.activeGames
                    else s3.activeGames ++ [gid] }
            else some s3
          else none

/-- `handle_reset_complete` (after session validation): set the caller's
reset event — the `try`/`except` makes a missing per-subject entry a no-op —
then, when every remaining event of the game is set, set the game's
`reset_event` to release the game loop (`all` of an empty table is true). -/
def handleResetComplete (s : ServerState) (gid sid : Nat) : ServerState :=
  match lookupA s.games gid with
  | none => s
  | some g =>
    let evs := (lookupA s.resetEvents gid).getD []
    let evs1 :=
      if (evs.find? (fun p => p.1 = sid)).isSome then
        evs.map (fun p => if p.1 = sid then (p.1, true) else p)
      else evs
    let s1 := { s with resetEvents := insertA s.resetEvents gid evs1 }
    if evs1.all (fun p => p.2) then
      { s1 with games := insertA s1.games gid { g with resetEventSet := true } }
    else s1

/-! ### Operation sequences over the registry (for the id-pool invariant) -/

/-- One registry operation: a `try_create_game` call, or a `_cleanup_game`
call on the live session with the given id (`_cleanup_game` takes a session
object, which its callers obtain from the live-session table). -/
inductive RegOp
  | create
  | cleanup (gid : Nat)

/-- Apply one registry operation; a raised `_cleanup_game` exception
propagates to the caller before any registry field is mutated, so the
registry state is unchanged on that path. -/
def applyOp (cfg : Config) (s : ServerState) (op : RegOp) : ServerState :=
  match op with
  | .create => (tryCreateGame cfg s).2
  | .cleanup gid =>
    match cleanupGame s gid with
    | Except.ok s1 => s1
    | Except.error _ => s

/-- Run a sequence of registry operations from a state. -/
def runOps (cfg : Config) (s : ServerState) (ops : List RegOp) : ServerState :=
  ops.foldl (applyOp cfg) s

/-- The id-pool invariant: the free ids together with the ids of live
sessions are exactly `1..n` (as a multiset, hence with no duplicates and no
overlap), and `FREE_MAP` marks exactly the non-live ids free. -/
def RegInv (n : Nat) (s : ServerState) : Prop :=
  (s.freeIds ++ s.games.map Prod.fst).Perm (List.range' 1 n) ∧
  ∀ id ∈ List.range' 1 n, (s.freeMap id = true ↔ id ∉ s.games.map Prod.fst)

/-! ### Concrete instances used when settling the claims -/

/-- A policy-inference function distinguishing its inputs. -/
def pfAdd : Nat → Nat → Nat := fun o h => o + h

/-- An environment whose every step reports termination. -/
def envTerm : StepArg → StepResult :=
  fun _ => { obs := fun _ => 0, terminated := true, truncated := false }

/-- A trivial `env.reset`. -/
def erZero : Option Nat → Nat → Nat := fun _ _ => 0

/-- A two-episode configuration with a single human slot. -/
def cfg2ep : Config :=
  { numEpisodes := 2, defaultAction := 0, frameSkip := 4,
    waitroomTimeout := 1000, policyMapping := [(0, PolicyId.human)] }

/-- A single-human-slot game after one join and the initial `reset()`:
`episode_num = 1`, status `Active`, empty queues. -/
def gEp1 : RemoteGame :=
  resetGame erZero none (addPlayer (newGame cfg2ep 1) 0 42)

/-- Configuration with a human slot and an autonomous (non-random) slot,
`frame_skip = 4`. -/
def cfgBot : Config :=
  { numEpisodes := 5, defaultAction := 0, frameSkip := 4,
    waitroomTimeout := 1000,
    policyMapping := [(0, PolicyId.human), (1, PolicyId.custom 7)] }

/-- A two-slot game (human subject 9, policy bot) at `tick_num = 1`. -/
def gBot : RemoteGame :=
  { status := GameStatus.Active
    pendingActions := []
    humanPlayers := [(0, some 9)]
    botPlayers := [(1, Bot.policy 7)]
    obs := fun _ => 10
    gameId := 1
    tickNum := 1
    episodeNum := 1
    resetEventSet := false }

/-- A two-human session (subjects 10 and 20) waiting at a reset barrier. -/
def g4 : RemoteGame :=
  { status := GameStatus.Reset
    pendingActions := []
    humanPlayers := [(0, some 10), (1, some 20)]
    botPlayers := []
    obs := fun _ => 0
    gameId := 1
    tickNum := 5
    episodeNum := 1
    resetEventSet := false }

/-- Server state hosting `g4` as the only (active) session, with both
participants still pending on the reset barrier. -/
def s4 : ServerState :=
  { freeIds := []
    freeMap := fun _ => false
    games := [(1, g4)]
    activeGames := [1]
    waitingGames := []
    userRooms := [(10, 1), (20, 1)]
    resetEvents := [(1, [(10, false), (20, false)])]
    waitroomTimeouts := [] }

/-- The result of subject 20 leaving `s4` (used to instantiate theorems). -/
def res4b : ServerState × Option GameExitStatus :=
  (leaveGame s4 20).getD (s4, none)

/-- A waiting (not yet active) session with only subject 10 joined. -/
def g5 : RemoteGame :=
  { g4 with status := GameStatus.Inactive, humanPlayers := [(0, some 10), (1, none)] }

/-- Server state hosting the waiting session `g5`. -/
def s5 : ServerState :=
  { s4 with
    games := [(1, g5)]
    activeGames := []
    waitingGames := [1]
    userRooms := [(10, 1)]
    resetEvents := [(1, [(10, false)])] }

/-- The result of subject 10 leaving the waiting session `s5`. -/
def res5 : ServerState × Option GameExitStatus :=
  (leaveGame s5 10).getD (s5, none)

/-- A registry state whose id 1 is already marked free. -/
def sFreeW : ServerState :=
  { s5 with freeMap := fun _ => true, games := [], freeIds := [1], userRooms := [] }

/-- The registry state `s5` viewed as a cleanup target (id 1 live). -/
def cleanupRes5 : ServerState :=
  (cleanupGame s5 1).toOption.getD s5

end IGym

namespace IGym

/-! ### Association-list lemmas -/

theorem lookupA_insertA_self {κ α : Type} [DecidableEq κ]
    (l : List (κ × α)) (k : κ) (v : α) :
    lookupA (insertA l k v) k = some v := by
  induction l with
  | nil => simp [insertA, lookupA]
  | cons p rest ih =>
    by_cases h : p.1 = k
    · simp [insertA, lookupA, h]
    · simp [insertA, lookupA, h, ih]

theorem lookupA_insertA_ne {κ α : Type} [DecidableEq κ]
    (l : List (κ × α)) (k k' : κ) (v : α) (hk : k' ≠ k) :
    lookupA (insertA l k v) k' = lookupA l k' := by
  have hk2 : ¬ k = k' := fun h => hk h.symm
  induction l with
  | nil => simp [insertA, lookupA, hk2]
  | cons p rest ih =>
    by_cases h : p.1 = k
    · subst h
      simp [insertA, lookupA, hk2]
    · by_cases h2 : p.1 = k'
      · simp [insertA, lookupA, h, h2, hk]
      · simp [insertA, lookupA, h, h2, ih]

theorem insertA_of_not_mem {κ α : Type} [DecidableEq κ]
    (l : List (κ × α)) (k : κ) (v : α) (h : k ∉ l.map Prod.fst) :
    insertA l k v = l ++ [(k, v)] := by
  induction l with
  | nil => simp [insertA]
  | cons p rest ih =>
    simp only [List.map_cons, List.mem_cons] at h
    push_neg at h
    simp [insertA, Ne.symm h.1, ih h.2]

theorem keys_insertA_mem {κ α : Type} [DecidableEq κ]
    (l : List (κ × α)) (k : κ) (v : α) (h : k ∈ l.map Prod.fst) :
    (insertA l k v).map Prod.fst = l.map Prod.fst := by
  induction l with
  | nil => simp at h
  | cons p rest ih =>
    by_cases hp : p.1 = k
    · simp [insertA, hp]
    · simp only [List.map_cons, List.mem_cons] at h
      rcases h with h | h

      · exact absurd h.symm hp
      · simp [insertA, hp, ih h]

theorem keys_eraseA {κ α : Type} [DecidableEq κ] (l : List (κ × α)) (k : κ) :
    (eraseA l k).map Prod.fst = (l.map Prod.fst).erase k := by
  induction l with
  | nil => simp [eraseA]
  | cons p rest ih =>
    by_cases hp : p.1 = k
    · simp [eraseA, hp, List.erase_cons]
    · simp [eraseA, hp, List.erase_cons, ih]

theorem mem_keys_of_lookupA {κ α : Type} [DecidableEq κ]
    {l : List (κ × α)} {k : κ} {v : α} (h : lookupA l k = some v) :
    k ∈ l.map Prod.fst := by
  induction l with
  | nil => simp [lookupA] at h
  | cons p rest ih =>
    by_cases hp : p.1 = k
    · simp [hp]
    · simp only [lookupA, if_neg hp] at h
      simp [ih h]

theorem lookupA_eq_none_of_not_mem {κ α : Type} [DecidableEq κ]
    {l : List (κ × α)} {k : κ} (h : k ∉ l.map Prod.fst) :
    lookupA l k = none := by
  induction l with
  | nil => simp [lookupA]
  | cons p rest ih =>
    simp only [List.map_cons, List.mem_cons] at h
    push_neg at h
    simp [lookupA, Ne.symm h.1, ih h.2]

theorem not_mem_keys_eraseA {κ α : Type} [DecidableEq κ]
    {l : List (κ × α)} {k k' : κ} (h : k ∉ l.map Prod.fst) :
    k ∉ (eraseA l k').map Prod.fst := by
  rw [keys_eraseA]
  intro hmem
  exact h (List.mem_of_mem_erase hmem)

theorem lookupA_eraseA_self {κ α : Type} [DecidableEq κ]
    (l : List (κ × α)) (k : κ) (hnd : (l.map Prod.fst).Nodup) :
    lookupA (eraseA l k) k = none := by
  apply lookupA_eq_none_of_not_mem
  rw [keys_eraseA]
  intro hmem
  exact absurd rfl (hnd.mem_erase_iff.mp hmem).1

theorem lookupA_eraseA_ne {κ α : Type} [DecidableEq κ]
    (l : List (κ × α)) (k k' : κ) (hk : k' ≠ k) :
    lookupA (eraseA l k) k' = lookupA l k' := by
  have hk2 : ¬ k = k' := fun h => hk h.symm
  induction l with
  | nil => simp [eraseA]
  | cons p rest ih =>
    by_cases hp : p.1 = k
    · subst hp
      simp [eraseA, lookupA, hk2]
    · by_cases h2 : p.1 = k'
      · simp [eraseA, lookupA, hp, h2, hk]
      · simp [eraseA, lookupA, hp, h2, ih]

theorem foldl_insertA_fresh {β : Type} (val : Nat × β → Nat) :
    ∀ (bs : List (Nat × β)) (acc : List (Nat × Nat)),
      (bs.map Prod.fst).Nodup →
      (∀ k ∈ bs.map Prod.fst, k ∉ acc.map Prod.fst) →
      bs.foldl (fun a p => insertA a p.1 (val p)) acc
        = acc ++ bs.map (fun p => (p.1, val p)) := by
  intro bs
  induction bs with
  | nil => intro acc _ _; simp
  | cons b rest ih =>
    intro acc hnd hfresh
    rw [List.map_cons, List.nodup_cons] at hnd
    simp only [List.foldl_cons]
    rw [insertA_of_not_mem acc b.1 (val b) (hfresh b.1 (by simp))]
    rw [ih (acc ++ [(b.1, val b)]) hnd.2 ?_]
    · simp
    · intro k hk hmem
      rw [List.map_append] at hmem
      rcases List.mem_append.mp hmem with hacc | hsing
      · exact hfresh k (by simp [hk]) hacc
      · have hkb : k = b.1 := by simpa using hsing
        exact hnd.1 (hkb ▸ hk)

/-! ### Registry invariant (claim C1) -/

theorem regInv_init (n : Nat) : RegInv n (initServer n) := by
  constructor
  · simp [initServer]
  · intro id hid
    simp [initServer]
    simpa using hid

theorem regInv_applyOp (n : Nat) (cfg : Config) (s : ServerState) (op : RegOp)
    (h : RegInv n s) : RegInv n (applyOp cfg s op) := by
  obtain ⟨hperm, hmap⟩ := h
  have hndall : (s.freeIds ++ s.games.map Prod.fst).Nodup :=
    hperm.nodup_iff.mpr (List.nodup_range' 1 n)
  match op with
  | .create =>
    cases hf : s.freeIds with
    | nil =>
      have happ : applyOp cfg s RegOp.create = s := by
        simp [applyOp, tryCreateGame, hf]
      rw [happ]
      exact ⟨hperm, hmap⟩
    | cons gid rest =>
      have hmemfree : gid ∈ s.freeIds ++ s.games.map Prod.fst := by
        simp [hf]
      have hgidrange : gid ∈ List.range' 1 n := hperm.mem_iff.mp hmemfree
      have hnotkeys : gid ∉ s.games.map Prod.fst := by
        rw [hf] at hndall
        have h1 := (List.nodup_cons.mp hndall).1
        intro hc
        exact h1 (List.mem_append.mpr (Or.inr hc))
      have hfree : s.freeMap gid = true := (hmap gid hgidrange).mpr hnotkeys
      have happ : applyOp cfg s RegOp.create =
          { s with
            freeIds := rest
            games := insertA s.games gid (newGame cfg gid)
            freeMap := fun i => if i = gid then false else s.freeMap i } := by
        simp [applyOp, tryCreateGame, hf, hfree]
      rw [happ]
      constructor
      · show (rest ++ (insertA s.games gid (newGame cfg gid)).map Prod.fst).Perm
          (List.range' 1 n)
        rw [insertA_of_not_mem _ _ _ hnotkeys]
        simp only [List.map_append, List.map_cons, List.map_nil]
        have h1 : rest ++ (s.games.map Prod.fst ++ [gid])
            = (rest ++ s.games.map Prod.fst) ++ [gid] := by
          simp [List.append_assoc]
        rw [h1]
        refine (List.perm_append_singleton gid _).trans ?_
        have h2 : gid :: (rest ++ s.games.map Prod.fst)
            = (gid :: rest) ++ s.games.map Prod.fst := rfl
        rw [h2, ← hf]
        exact hperm
      · intro id hid
        show ((if id = gid then false else s.freeMap id) = true
          ↔ id ∉ (insertA s.games gid (newGame cfg gid)).map Prod.fst)
        rw [insertA_of_not_mem _ _ _ hnotkeys]
        by_cases hidg : id = gid
        · subst hidg
          simp
        · simp only [if_neg hidg, List.map_append, List.map_cons, List.map_nil,
            List.mem_append, List.mem_singleton]
          rw [hmap id hid]
          constructor
          · intro hh hc
            rcases hc with hc | hc
            · exact hh hc
            · exact hidg hc
          · intro hh hc
            exact hh (Or.inl hc)
  | .cleanup gid =>
    by_cases hfm : s.freeMap gid = true
    · have happ : applyOp cfg s (RegOp.cleanup gid) = s := by
        simp [applyOp, cleanupGame, hfm]
      rw [happ]
      exact ⟨hperm, hmap⟩
    · cases hg : lookupA s.games gid with
      | none =>
        have happ : applyOp cfg s (RegOp.cleanup gid) = s := by
          simp [applyOp, cleanupGame, hfm, hg]
        rw [happ]
        exact ⟨hperm, hmap⟩
      | some g =>
        have hgidkeys : gid ∈ s.games.map Prod.fst := mem_keys_of_lookupA hg
        have hndkeys : (s.games.map Prod.fst).Nodup :=
          (List.nodup_append.mp hndall).2.1
        have happ : applyOp cfg s (RegOp.cleanup gid) =
            { s with
              userRooms := (cleanupMaps gid g.humanPlayers s.userRooms s.resetEvents).1
              resetEvents := (cleanupMaps gid g.humanPlayers s.userRooms s.resetEvents).2
              freeMap := fun i => if i = gid then true else s.freeMap i
              freeIds := s.freeIds ++ [gid]
              games := eraseA s.games gid
              activeGames :=
                if gid ∈ s.activeGames then s.activeGames.erase gid
                else s.activeGames } := by
          simp [applyOp, cleanupGame, hfm, hg]
        rw [happ]
        constructor
        · show ((s.freeIds ++ [gid]) ++ (eraseA s.games gid).map Prod.fst).Perm
            (List.range' 1 n)
          rw [keys_eraseA]
          have h1 : (s.freeIds ++ [gid]) ++ (s.games.map Prod.fst).erase gid
              = s.freeIds ++ (gid :: (s.games.map Prod.fst).erase gid) := by
            simp [List.append_assoc]
          rw [h1]
          exact (List.Perm.append_left s.freeIds
            (List.perm_cons_erase hgidkeys).symm).trans hperm
        · intro id hid
          show ((if id = gid then true else s.freeMap id) = true
            ↔ id ∉ (eraseA s.games gid).map Prod.fst)
          rw [keys_eraseA]
          by_cases hidg : id = gid
          · subst hidg
            rw [if_pos rfl]
            exact ⟨fun _ hmem => absurd rfl (hndkeys.mem_erase_iff.mp hmem).1,
              fun _ => rfl⟩
          · simp only [if_neg hidg]
            rw [hmap id hid]
            constructor
            · intro hh hc
              exact hh (hndkeys.mem_erase_iff.mp hc).2
            · intro hh hc
              exact hh (hndkeys.mem_erase_iff.mpr ⟨hidg, hc⟩)

theorem regInv_runOps (n : Nat) (cfg : Config) (ops : List RegOp)
    (s : ServerState) (h : RegInv n s) : RegInv n (runOps cfg s ops) := by
  induction ops generalizing s with
  | nil => exact h
  | cons op rest ih => exact ih _ (regInv_applyOp n cfg s op h)

/-! ### Further helper lemmas -/

theorem not_mem_keys_eraseA_self {κ α : Type} [DecidableEq κ]
    {l : List (κ × α)} {k : κ} (hnd : (l.map Prod.fst).Nodup) :
    k ∉ (eraseA l k).map Prod.fst := by
  rw [keys_eraseA]
  intro hmem
  exact absurd rfl (hnd.mem_erase_iff.mp hmem).1

theorem humanActions_keys (d : Nat) (pa : List (Option Nat × List Nat))
    (hs : List (Nat × Option Nat)) :
    (humanActions d pa hs).1.map Prod.fst = hs.map Prod.fst := by
  induction hs generalizing pa with
  | nil => simp [humanActions]
  | cons p rest ih =>
    obtain ⟨pid, sid⟩ := p
    simp [humanActions, ih]

theorem humanActions_length (d : Nat) (pa : List (Option Nat × List Nat))
    (hs : List (Nat × Option Nat)) :
    (humanActions d pa hs).1.length = hs.length := by
  induction hs generalizing pa with
  | nil => simp [humanActions]
  | cons p rest ih =>
    obtain ⟨pid, sid⟩ := p
    simp [humanActions, ih]

theorem removeHumanPlayer_resetEventSet (g : RemoteGame) (sid : Nat) :
    (removeHumanPlayer g sid).resetEventSet = g.resetEventSet := by
  unfold removeHumanPlayer
  cases g.humanPlayers.find? (fun p => p.2 = some sid) <;> rfl

theorem removeHumanPlayer_gameId (g : RemoteGame) (sid : Nat) :
    (removeHumanPlayer g sid).gameId = g.gameId := by
  unfold removeHumanPlayer
  cases g.humanPlayers.find? (fun p => p.2 = some sid) <;> rfl

theorem cleanupMaps_userRooms_not_mem (gid : Nat)
    (slots : List (Nat × Option Nat)) (ur : List (Nat × Nat))
    (re : List (Nat × List (Nat × Bool))) (k : Nat)
    (h : k ∉ ur.map Prod.fst) :
    k ∉ (cleanupMaps gid slots ur re).1.map Prod.fst := by
  induction slots generalizing ur re with
  | nil => simpa [cleanupMaps] using h
  | cons p rest ih =>
    obtain ⟨pid, v⟩ := p
    cases v with
    | none =>
      simp only [cleanupMaps]
      exact ih _ _ h
    | some sid2 =>
      simp only [cleanupMaps]
      exact ih _ _ (not_mem_keys_eraseA h)

theorem cleanupMaps_resetEvents_not_mem (gid : Nat)
    (slots : List (Nat × Option Nat)) (ur : List (Nat × Nat))
    (re : List (Nat × List (Nat × Bool))) (k : Nat)
    (h : k ∉ ((lookupA re gid).getD []).map Prod.fst) :
    k ∉ ((lookupA (cleanupMaps gid slots ur re).2 gid).getD []).map Prod.fst := by
  induction slots generalizing ur re with
  | nil => simpa [cleanupMaps] using h
  | cons p rest ih =>
    obtain ⟨pid, v⟩ := p
    cases v with
    | none =>
      simp only [cleanupMaps]
      exact ih _ _ h
    | some sid2 =>
      simp only [cleanupMaps]
      apply ih
      rw [resetEventsDel, lookupA_insertA_self]
      exact not_mem_keys_eraseA h

/-! ### Claim theorems -/

/-- C1: Registry id-pool invariant.  Starting from a fresh registry with ids
`1..n`, after any finite sequence of `try_create_game` and `_cleanup_game`
operations the multiset of free ids together with the ids of live sessions
is exactly `1..n` — so the two sets are disjoint, their union is the full id
set, and at most `n` sessions are live at any time. -/
theorem registry_id_pool_invariant (n : Nat) (cfg : Config) (ops : List RegOp) :
    ((runOps cfg (initServer n) ops).freeIds
        ++ (runOps cfg (initServer n) ops).games.map Prod.fst).Perm
      (List.range' 1 n) ∧
    (∀ id, ¬(id ∈ (runOps cfg (initServer n) ops).freeIds ∧
        id ∈ (runOps cfg (initServer n) ops).games.map Prod.fst)) ∧
    (runOps cfg (initServer n) ops).games.length ≤ n := by
  obtain ⟨hperm, -⟩ := regInv_runOps n cfg ops _ (regInv_init n)
  have hnd := hperm.nodup_iff.mpr (List.nodup_range' 1 n)
  rw [List.nodup_append] at hnd
  refine ⟨hperm, ?_, ?_⟩
  · intro id hc
    exact hnd.2.2 hc.1 hc.2
  · have hlen := hperm.length_eq
    rw [List.length_append, List.length_range', List.length_map] at hlen
    omega

/-- C2 (counterexample): with `num_episodes = 2`, a session after its
initial `reset()` has `episode_num = 1`; the claimed guard
`episode < num_episodes - 1` is then false, predicting `Done`, but `tick`
on a terminating step sets `Reset` (the code compares against
`num_episodes`, not `num_episodes - 1`). -/
theorem tick_episode_budget_counterexample :
    gEp1.episodeNum = 1 ∧ cfg2ep.numEpisodes = 2 ∧
    ¬ (gEp1.episodeNum < cfg2ep.numEpisodes - 1) ∧
    (envTerm (stepArgOf cfg2ep pfAdd 0 gEp1)).terminated = true ∧
    (tick cfg2ep envTerm pfAdd 0 gEp1).status = GameStatus.Reset :=
  ⟨rfl, rfl, by decide, rfl, rfl⟩

/-- C2 (amended): whenever the environment step reports termination or
truncation, `tick()` sets status to `Reset` exactly when the session's
episode counter is strictly less than `num_episodes`, and to `Done`
exactly otherwise (the counter starts at 0 and is incremented by every
`reset()`, including the initial one). -/
theorem tick_episode_budget (cfg : Config) (envStep : StepArg → StepResult)
    (pf : Nat → Nat → Nat) (sample : Nat) (g : RemoteGame)
    (er : Option Nat → Nat → Nat) (seed : Option Nat)
    (hterm : (envStep (stepArgOf cfg pf sample g)).terminated = true ∨
      (envStep (stepArgOf cfg pf sample g)).truncated = true) :
    ((tick cfg envStep pf sample g).status = GameStatus.Reset ↔
      g.episodeNum < cfg.numEpisodes) ∧
    ((tick cfg envStep pf sample g).status = GameStatus.Done ↔
      ¬ g.episodeNum < cfg.numEpisodes) ∧
    (resetGame er seed g).episodeNum = g.episodeNum + 1 := by
  have hb : ((envStep (stepArgOf cfg pf sample g)).terminated
      || (envStep (stepArgOf cfg pf sample g)).truncated) = true := by
    rcases hterm with h | h <;> simp [h]
  have hstat : (tick cfg envStep pf sample g).status =
      (if g.episodeNum < cfg.numEpisodes then GameStatus.Reset
        else GameStatus.Done) := by
    show (if ((envStep (stepArgOf cfg pf sample g)).terminated
        || (envStep (stepArgOf cfg pf sample g)).truncated) = true then
          if g.episodeNum < cfg.numEpisodes then GameStatus.Reset
          else GameStatus.Done
        else g.status) = _
    rw [if_pos hb]
  rw [hstat]
  by_cases he : g.episodeNum < cfg.numEpisodes
  · simp [he, resetGame]
  · simp [he, resetGame]

/-- Witness for C2's amended theorem at a concrete terminating step. -/
theorem tick_episode_budget_witness :
    ((tick cfg2ep envTerm pfAdd 0 gEp1).status = GameStatus.Reset ↔
      gEp1.episodeNum < cfg2ep.numEpisodes) ∧
    ((tick cfg2ep envTerm pfAdd 0 gEp1).status = GameStatus.Done ↔
      ¬ gEp1.episodeNum < cfg2ep.numEpisodes) ∧
    (resetGame erZero none gEp1).episodeNum = gEp1.episodeNum + 1 :=
  tick_episode_budget cfg2ep envTerm pfAdd 0 gEp1 erZero none (Or.inl rfl)

/-- C3 (counterexample): enqueueing action 1 and then action 2 for the same
identity before a tick does not leave the queue holding only action 2: the
first enqueue fills the capacity-1 queue with action 1, and the second call
never completes (the blocking `put` suspends the caller), refuting both
most-recent-wins and never-blocks. -/
theorem enqueue_most_recent_wins_counterexample :
    (enqueueAction gEp1 42 1).map
        (fun g1 => (lookupA g1.pendingActions (some 42)).getD []) = some [1] ∧
    ((enqueueAction gEp1 42 1).bind (fun g1 => enqueueAction g1 42 2)) = none :=
  ⟨rfl, rfl⟩

/-- C3 (amended): for an Active session and an identity occupying a human
slot with an empty queue, `enqueue_action(identity, a1)` succeeds and
leaves the capacity-1 queue holding `a1`; a subsequent
`enqueue_action(identity, a2)` before the next tick blocks the caller (the
blocking `put` on a full queue never returns in the absence of a consumer)
and does not replace `a1`, so a tick at that point would observe `a1`. -/
theorem enqueue_second_blocks (g : RemoteGame) (sid a1 a2 : Nat)
    (hA : g.status = GameStatus.Active)
    (hm : some sid ∈ g.humanPlayers.map Prod.snd)
    (hq : (lookupA g.pendingActions (some sid)).getD [] = []) :
    enqueueAction g sid a1 =
      some { g with pendingActions := insertA g.pendingActions (some sid) [a1] } ∧
    (lookupA (insertA g.pendingActions (some sid) [a1]) (some sid)).getD []
      = [a1] ∧
    enqueueAction
        { g with pendingActions := insertA g.pendingActions (some sid) [a1] }
        sid a2 = none := by
  refine ⟨?_, ?_, ?_⟩
  · simp [enqueueAction, hA, hm, hq]
  · rw [lookupA_insertA_self]
    rfl
  · simp [enqueueAction, hA, hm, lookupA_insertA_self]

/-- Witness for C3's amended theorem at a concrete session. -/
theorem enqueue_second_blocks_witness :
    enqueueAction gEp1 42 1 =
      some { gEp1 with pendingActions := insertA gEp1.pendingActions (some 42) [1] } ∧
    (lookupA (insertA gEp1.pendingActions (some 42) [1]) (some 42)).getD []
      = [1] ∧
    enqueueAction
        { gEp1 with pendingActions := insertA gEp1.pendingActions (some 42) [1] }
        42 2 = none :=
  enqueue_second_blocks gEp1 42 1 2 rfl (by decide) rfl

/-- C7: the frame-skip claimed for autonomous slots is absent from `tick`:
at `tick_num = 1` with `frame_skip = 4` (a skipped tick under the claim)
the bound policy is still invoked — the bot's action in the step argument
is the freshly computed policy output `17 = pf(obs, handle)`, not a
repeated previous action and not the default action `0`. -/
theorem tick_policy_invoked_on_skipped_tick :
    cfgBot.frameSkip = 4 ∧
    gBot.tickNum % cfgBot.frameSkip ≠ 0 ∧
    stepArgOf cfgBot pfAdd 0 gBot = StepArg.multi [(0, 0), (1, 17)] ∧
    pfAdd (gBot.obs 1) 7 = 17 ∧
    cfgBot.defaultAction = 0 := by
  decide

/-- C8 (counterexample): a session with exactly one participant slot does
not pass a mapping to `env.step`: the `len(player_actions) == 1` collapse
passes the bare action instead. -/
theorem step_arg_not_mapping_counterexample :
    gEp1.humanPlayers.length + gEp1.botPlayers.length = 1 ∧
    stepArgOf cfg2ep pfAdd 0 gEp1 = StepArg.single 0 := by
  decide

/-- C8 (amended): whenever the session has at least two participant slots
(human plus autonomous, with distinct slot ids), `tick()` passes `env.step`
a mapping containing exactly one entry per slot; with exactly one slot the
bare action is passed instead. -/
theorem step_arg_mapping_when_multislot (cfg : Config) (pf : Nat → Nat → Nat)
    (sample : Nat) (g : RemoteGame)
    (h2 : 2 ≤ g.humanPlayers.length + g.botPlayers.length)
    (hb : (g.botPlayers.map Prod.fst).Nodup)
    (hd : ∀ k ∈ g.botPlayers.map Prod.fst, k ∉ g.humanPlayers.map Prod.fst) :
    stepArgOf cfg pf sample g =
      StepArg.multi
        ((humanActions cfg.defaultAction g.pendingActions g.humanPlayers).1
          ++ g.botPlayers.map (fun p => (p.1, botAction pf sample g p.2 p.1))) ∧
    ((humanActions cfg.defaultAction g.pendingActions g.humanPlayers).1
        ++ g.botPlayers.map (fun p => (p.1, botAction pf sample g p.2 p.1))).map
        Prod.fst
      = g.humanPlayers.map Prod.fst ++ g.botPlayers.map Prod.fst := by
  have hkeys : (humanActions cfg.defaultAction g.pendingActions g.humanPlayers).1.map
      Prod.fst = g.humanPlayers.map Prod.fst :=
    humanActions_keys cfg.defaultAction g.pendingActions g.humanPlayers
  have hassign : (tickActions cfg pf sample g).1
      = (humanActions cfg.defaultAction g.pendingActions g.humanPlayers).1
        ++ g.botPlayers.map (fun p => (p.1, botAction pf sample g p.2 p.1)) := by
    show botAssign pf sample g
        (humanActions cfg.defaultAction g.pendingActions g.humanPlayers).1 = _
    unfold botAssign
    refine foldl_insertA_fresh (fun p => botAction pf sample g p.2 p.1)
      g.botPlayers _ hb ?_
    intro k hk
    rw [hkeys]
    exact hd k hk
  constructor
  · unfold stepArgOf
    rw [hassign]
    rw [if_neg ?_]
    have hlh := humanActions_length cfg.defaultAction g.pendingActions g.humanPlayers
    rw [List.length_append, List.length_map, hlh]
    omega
  · rw [List.map_append, hkeys, List.map_map]
    rfl

/-- Witness for C8's amended theorem at a concrete two-slot session. -/
theorem step_arg_mapping_when_multislot_witness :
    stepArgOf cfgBot pfAdd 0 gBot =
      StepArg.multi
        ((humanActions cfgBot.defaultAction gBot.pendingActions gBot.humanPlayers).1
          ++ gBot.botPlayers.map (fun p => (p.1, botAction pfAdd 0 gBot p.2 p.1))) ∧
    ((humanActions cfgBot.defaultAction gBot.pendingActions gBot.humanPlayers).1
        ++ gBot.botPlayers.map (fun p => (p.1, botAction pfAdd 0 gBot p.2 p.1))).map
        Prod.fst
      = gBot.humanPlayers.map Prod.fst ++ gBot.botPlayers.map Prod.fst :=
  step_arg_mapping_when_multislot cfgBot pfAdd 0 gBot (by decide) (by decide)
    (by decide)

/-- C9: `_cleanup_game` on a session whose id is already marked free raises
(`ValueError`, modelled as `CleanupErr.doubleFree`) without mutating the
registry; it succeeds only when the id is marked in-use, and on success it
marks the id free and pushes exactly one new occurrence of it onto the free
pool. -/
theorem cleanup_double_free_fatal (s : ServerState) (gid : Nat) :
    (s.freeMap gid = true → cleanupGame s gid = Except.error CleanupErr.doubleFree) ∧
    (∀ s', cleanupGame s gid = Except.ok s' →
      s.freeMap gid = false ∧ s'.freeMap gid = true ∧
      s'.freeIds.count gid = s.freeIds.count gid + 1) := by
  constructor
  · intro hf
    simp [cleanupGame, hf]
  · intro s' hok
    by_cases hf : s.freeMap gid = true
    · simp [cleanupGame, hf] at hok
    · cases hg : lookupA s.games gid with
      | none => simp [cleanupGame, hf, hg] at hok
      | some g =>
        simp only [cleanupGame, hf, Bool.false_eq_true, if_false, hg,
          Except.ok.injEq] at hok
        refine ⟨by simpa using hf, ?_, ?_⟩
        · rw [← hok]
          simp
        · rw [← hok]
          simp

/-- Witness for C9 at concrete registries: a double free raises, and a
legitimate cleanup releases the id exactly once. -/
theorem cleanup_double_free_fatal_witness :
    cleanupGame sFreeW 1 = Except.error CleanupErr.doubleFree ∧
    (s5.freeMap 1 = false ∧ cleanupRes5.freeMap 1 = true ∧
      cleanupRes5.freeIds.count 1 = s5.freeIds.count 1 + 1) :=
  ⟨(cleanup_double_free_fatal sFreeW 1).1 rfl,
   (cleanup_double_free_fatal s5 1).2 cleanupRes5 rfl⟩

/-- C6: a join request from a connection that is already joined to a
session is a no-op: `join_or_create_game` returns with the entire server
state unchanged. -/
theorem join_idempotent (cfg : Config) (pick : List Nat → Option Nat)
    (now : Nat) (s : ServerState) (sid : Nat)
    (hjoined : (getExistingGame s sid).isSome = true) :
    joinOrCreateGame cfg pick now s sid = some s := by
  simp [joinOrCreateGame, hjoined]

/-- Witness for C6 at a concrete state with a joined connection. -/
theorem join_idempotent_witness :
    (getExistingGame s4 10).isSome = true ∧
    joinOrCreateGame cfg2ep (fun l => some (l.headD 0)) 0 s4 10 = some s4 :=
  ⟨rfl, join_idempotent cfg2ep (fun l => some (l.headD 0)) 0 s4 10 rfl⟩

/-- C10: `tear_down` changes only the status (to `Inactive`) and empties
the per-identity action queues; the slot maps, counters, observation and
reset event are untouched, and a second `tear_down` leaves the state
identical. -/
theorem tear_down_frame_effect (g : RemoteGame) :
    (tearDown g).status = GameStatus.Inactive ∧
    (tearDown g).pendingActions
      = g.pendingActions.map (fun p => (p.1, ([] : List Nat))) ∧
    (tearDown g).humanPlayers = g.humanPlayers ∧
    (tearDown g).botPlayers = g.botPlayers ∧
    (tearDown g).tickNum = g.tickNum ∧
    (tearDown g).episodeNum = g.episodeNum ∧
    (tearDown g).obs = g.obs ∧
    (tearDown g).gameId = g.gameId ∧
    (tearDown g).resetEventSet = g.resetEventSet ∧
    tearDown (tearDown g) = tearDown g := by
  refine ⟨rfl, rfl, rfl, rfl, rfl, rfl, rfl, rfl, rfl, ?_⟩
  unfold tearDown
  rw [List.map_map]
  exact rfl

/-- C5: for a joined connection, `_leave_game` removes the participant and
returns the four-way classification of (was the session active, is it now
empty); an active-now-empty session is torn down with its id not yet
reclaimed, an inactive-now-empty session is cleaned up with the id
reclaimed immediately, an inactive session with other participants is left
live (waiting-room rebroadcast only), and an active session with other
participants is torn down. -/
theorem leave_four_way_classification (s : ServerState) (sid : Nat)
    (g : RemoteGame)
    (hur : lookupA s.userRooms sid = some g.gameId)
    (hg : lookupA s.games g.gameId = some g)
    (hfm : s.freeMap g.gameId = false)
    (hndg : (s.games.map Prod.fst).Nodup)
    (hndu : (s.userRooms.map Prod.fst).Nodup) :
    (leaveGame s sid).isSome = true ∧
    ∀ s' r, leaveGame s sid = some (s', r) →
      lookupA s'.userRooms sid = none ∧
      r = some
        (if g.gameId ∈ s.activeGames ∧
            curNumHumanPlayers (removeHumanPlayer g sid) = 0
          then GameExitStatus.ActiveNoPlayers
          else if curNumHumanPlayers (removeHumanPlayer g sid) = 0
            then GameExitStatus.InactiveNoPlayers
            else if g.gameId ∉ s.activeGames
              then GameExitStatus.InactiveWithOtherPlayers
              else GameExitStatus.ActiveWithOtherPlayers) ∧
      (g.gameId ∈ s.activeGames →
        curNumHumanPlayers (removeHumanPlayer g sid) = 0 →
        lookupA s'.games g.gameId = some (tearDown (removeHumanPlayer g sid)) ∧
        s'.freeIds = s.freeIds ∧ s'.freeMap g.gameId = false) ∧
      (g.gameId ∉ s.activeGames →
        curNumHumanPlayers (removeHumanPlayer g sid) = 0 →
        lookupA s'.games g.gameId = none ∧
        s'.freeMap g.gameId = true ∧ g.gameId ∈ s'.freeIds) ∧
      (g.gameId ∉ s.activeGames →
        curNumHumanPlayers (removeHumanPlayer g sid) ≠ 0 →
        lookupA s'.games g.gameId = some (removeHumanPlayer g sid) ∧
        s'.freeIds = s.freeIds ∧ s'.freeMap g.gameId = false) ∧
      (g.gameId ∈ s.activeGames →
        curNumHumanPlayers (removeHumanPlayer g sid) ≠ 0 →
        lookupA s'.games g.gameId = some (tearDown (removeHumanPlayer g sid)) ∧
        s'.freeIds = s.freeIds ∧ s'.freeMap g.gameId = false) := by
  have hget : getExistingGame s sid = some g := by
    simp [getExistingGame, hur, hg]
  have hndins : ((insertA s.games g.gameId
      (removeHumanPlayer g sid)).map Prod.fst).Nodup := by
    rw [keys_insertA_mem _ _ _ (mem_keys_of_lookupA hg)]
    exact hndg
  by_cases hA : g.gameId ∈ s.activeGames
  · by_cases hE : curNumHumanPlayers (removeHumanPlayer g sid) = 0
    · -- active, now empty: tear down, id kept
      constructor
      · simp [leaveGame, hget, hA, hE]
      · intro s' r heq
        simp [leaveGame, hget, hA, hE, cleanupGame, hfm, lookupA_insertA_self] at heq
        obtain ⟨h1, h2⟩ := heq
        subst h1
        subst h2
        refine ⟨lookupA_eraseA_self _ _ hndu, by simp [hA, hE], ?_, ?_, ?_, ?_⟩
        · intro _ _
          exact ⟨lookupA_insertA_self _ _ _, rfl, hfm⟩
        · intro hc _
          exact absurd hA hc
        · intro hc _
          exact absurd hA hc
        · intro _ hc
          exact absurd hE hc
    · -- active, others remain: tear down
      constructor
      · simp [leaveGame, hget, hA, hE]
      · intro s' r heq
        simp [leaveGame, hget, hA, hE, cleanupGame, hfm, lookupA_insertA_self] at heq
        obtain ⟨h1, h2⟩ := heq
        subst h1
        subst h2
        refine ⟨lookupA_eraseA_self _ _ hndu, by simp [hA, hE], ?_, ?_, ?_, ?_⟩
        · intro _ hc
          exact absurd hc hE
        · intro hc _
          exact absurd hA hc
        · intro hc _
          exact absurd hA hc
        · intro _ _
          exact ⟨lookupA_insertA_self _ _ _, rfl, hfm⟩
  · by_cases hE : curNumHumanPlayers (removeHumanPlayer g sid) = 0
    · -- inactive, now empty: cleanup, id reclaimed
      constructor
      · simp [leaveGame, hget, hA, hE, cleanupGame, hfm, lookupA_insertA_self]
      · intro s' r heq
        simp [leaveGame, hget, hA, hE, cleanupGame, hfm, lookupA_insertA_self] at heq
        obtain ⟨h1, h2⟩ := heq
        subst h1
        subst h2
        refine ⟨?_, by simp [hA, hE], ?_, ?_, ?_, ?_⟩
        · exact lookupA_eq_none_of_not_mem
            (cleanupMaps_userRooms_not_mem _ _ _ _ _
              (not_mem_keys_eraseA_self hndu))
        · intro hc _
          exact absurd hc hA
        · intro _ _
          refine ⟨?_, by simp, by simp⟩
          exact lookupA_eq_none_of_not_mem (not_mem_keys_eraseA_self hndins)
        · intro _ hc
          exact absurd hE hc
        · intro hc _
          exact absurd hc hA
    · -- inactive, others remain: waiting-room rebroadcast only
      constructor
      · simp [leaveGame, hget, hA, hE]
      · intro s' r heq
        simp [leaveGame, hget, hA, hE, cleanupGame, hfm, lookupA_insertA_self] at heq
        obtain ⟨h1, h2⟩ := heq
        subst h1
        subst h2
        refine ⟨lookupA_eraseA_self _ _ hndu, by simp [hA, hE], ?_, ?_, ?_, ?_⟩
        · intro hc _
          exact absurd hc hA
        · intro _ hc
          exact absurd hc hE
        · intro _ _
          exact ⟨lookupA_insertA_self _ _ _, rfl, hfm⟩
        · intro hc _
          exact absurd hc hA

/-- Witness for C5 at a concrete waiting session whose only participant
leaves. -/
theorem leave_four_way_witness :
    (leaveGame s5 10).isSome = true ∧
    res5.2 = some GameExitStatus.InactiveNoPlayers ∧
    lookupA res5.1.userRooms 10 = none ∧
    lookupA res5.1.games 1 = none ∧
    res5.1.freeMap 1 = true ∧
    (1 : Nat) ∈ res5.1.freeIds := by
  have h := leave_four_way_classification s5 10 g5 rfl rfl rfl
    (by decide) (by decide)
  have h2 := h.2 res5.1 res5.2 rfl
  have h4 := h2.2.2.2.1 (by decide) (by decide)
  exact ⟨h.1, h2.2.1.trans (by decide), h2.1, h4.1, h4.2.1, h4.2.2⟩

/-- C4 (counterexample): two participants are pending at the barrier;
participant 10 acknowledges, then participant 20 leaves.  Afterwards every
remaining connected participant has acknowledged, yet the game-loop release
event is still unset — and no pending acknowledgment remains that could
ever set it — so the departed participant's missing acknowledgment blocks
the barrier permanently. -/
theorem barrier_release_counterexample :
    (lookupA (handleResetComplete s4 1 10).resetEvents 1).getD []
      = [(10, true), (20, false)] ∧
    (leaveGame (handleResetComplete s4 1 10) 20).map
        (fun r => (lookupA r.1.resetEvents 1).getD []) = some [(10, true)] ∧
    (leaveGame (handleResetComplete s4 1 10) 20).map
        (fun r => ((lookupA r.1.resetEvents 1).getD []).all (fun p => p.2))
      = some true ∧
    (leaveGame (handleResetComplete s4 1 10) 20).map
        (fun r => (lookupA r.1.games 1).map (fun g => g.resetEventSet))
      = some (some false) :=
  ⟨rfl, rfl, rfl, rfl⟩

/-- C4 (amended): a participant who leaves mid-reset-cycle is removed from
the barrier's pending set at leave-time, but leaving never sets the
session's loop-release event — the all-acknowledged check runs only inside
the reset-acknowledgment handler — so a participant who departs after every
other participant has acknowledged leaves the barrier permanently
blocked. -/
theorem barrier_leave_removes_but_never_releases (s : ServerState) (sid : Nat)
    (g : RemoteGame)
    (hur : lookupA s.userRooms sid = some g.gameId)
    (hg : lookupA s.games g.gameId = some g)
    (hfm : s.freeMap g.gameId = false)
    (hndg : (s.games.map Prod.fst).Nodup)
    (hnre : (((lookupA s.resetEvents g.gameId).getD []).map Prod.fst).Nodup) :
    ∀ s' r, leaveGame s sid = some (s', r) →
      sid ∉ ((lookupA s'.resetEvents g.gameId).getD []).map Prod.fst ∧
      (∀ g', lookupA s'.games g.gameId = some g' →
        g'.resetEventSet = g.resetEventSet) := by
  have hget : getExistingGame s sid = some g := by
    simp [getExistingGame, hur, hg]
  have hndins : ((insertA s.games g.gameId
      (removeHumanPlayer g sid)).map Prod.fst).Nodup := by
    rw [keys_insertA_mem _ _ _ (mem_keys_of_lookupA hg)]
    exact hndg
  have hdel : sid ∉ ((lookupA
      (resetEventsDel s.resetEvents g.gameId sid) g.gameId).getD
        []).map Prod.fst := by
    rw [resetEventsDel, lookupA_insertA_self]
    exact not_mem_keys_eraseA_self hnre
  have hres : (tearDown (removeHumanPlayer g sid)).resetEventSet
      = g.resetEventSet := removeHumanPlayer_resetEventSet g sid
  by_cases hA : g.gameId ∈ s.activeGames
  · by_cases hE : curNumHumanPlayers (removeHumanPlayer g sid) = 0
    · intro s' r heq
      simp [leaveGame, hget, hA, hE, cleanupGame, hfm, lookupA_insertA_self] at heq
      obtain ⟨h1, h2⟩ := heq
      subst h1
      subst h2
      refine ⟨hdel, ?_⟩
      intro g' hl
      rw [lookupA_insertA_self] at hl
      cases hl
      exact hres
    · intro s' r heq
      simp [leaveGame, hget, hA, hE, cleanupGame, hfm, lookupA_insertA_self] at heq
      obtain ⟨h1, h2⟩ := heq
      subst h1
      subst h2
      refine ⟨hdel, ?_⟩
      intro g' hl
      rw [lookupA_insertA_self] at hl
      cases hl
      exact hres
  · by_cases hE : curNumHumanPlayers (removeHumanPlayer g sid) = 0
    · intro s' r heq
      simp [leaveGame, hget, hA, hE, cleanupGame, hfm, lookupA_insertA_self] at heq
      obtain ⟨h1, h2⟩ := heq
      subst h1
      subst h2
      constructor
      · exact cleanupMaps_resetEvents_not_mem _ _ _ _ _ hdel
      · intro g' hl
        rw [lookupA_eq_none_of_not_mem (not_mem_keys_eraseA_self hndins)] at hl
        cases hl
    · intro s' r heq
      simp [leaveGame, hget, hA, hE, cleanupGame, hfm, lookupA_insertA_self] at heq
      obtain ⟨h1, h2⟩ := heq
      subst h1
      subst h2
      refine ⟨hdel, ?_⟩
      intro g' hl
      rw [lookupA_insertA_self] at hl
      cases hl
      exact removeHumanPlayer_resetEventSet g sid

/-- Witness for C4's amended theorem at a concrete barrier state. -/
theorem barrier_leave_witness :
    (20 : Nat) ∉ ((lookupA res4b.1.resetEvents 1).getD []).map Prod.fst ∧
    (tearDown (removeHumanPlayer g4 20)).resetEventSet = g4.resetEventSet := by
  have h := barrier_leave_removes_but_never_releases s4 20 g4 rfl rfl rfl
    (by decide) (by decide) res4b.1 res4b.2 rfl
  exact ⟨h.1, h.2 (tearDown (removeHumanPlayer g4 20)) rfl⟩

end IGym
